import Mathlib

/-!
# Verification of the evidence-clustering / relationship-resolution core

Shallow embedding of the clustering and relationship-resolution core of the
repository:

* `packages/core/src/utils/clustering.ts` — `euclideanDistance`,
  `calculateClusterCentroid`, `dbscanClustering`, `getNeighbors`,
  `groupByCluster`;
* the `FindSubjectRelationship` tool — parameter validation, name
  resolution (exact then fuzzy SQL match), the cached-summary lookup,
  `dbscanClusterSubjectEmbeddings` (the shared-evidence SQL query plus
  clustering), the `subject_relationships` upsert, and the summarizer call;
* the `FindSourcesBySubject` tool's `findSubjectIdByName` (exact-then-fuzzy
  single-name resolver).

Numbers: the TypeScript `number`s that the verified claims exercise are
integers and small decimal literals (`1.5`, `0.2`), all exact in binary or
handled only through order comparisons that floating point evaluates exactly
at the inputs considered; they are modelled as `ℚ` (vector components, `eps`)
and `ℤ` (ids, labels, `minPoints`).  `Math.sqrt(s) <= eps` is modelled by the
equivalent `0 ≤ eps ∧ s ≤ eps^2`, which avoids irrational values.
-/

/-! ## VectorMath (clustering.ts)

`euclideanDistance` throws (`DimensionMismatch`) when the two vectors differ
in length; every use below is on vectors of one embedding space, so the
distance comparison is modelled on the common prefix (`zip`) and the general
theorems that quantify over inputs carry a `UniformDims` hypothesis making
the no-throw assumption explicit. -/

/-- Sum of squared coordinate differences, the value whose square root
`euclideanDistance` returns. -/
def sqDist (a b : List ℚ) : ℚ :=
  ((a.zip b).map fun p => (p.1 - p.2) * (p.1 - p.2)).sum

/-- `euclideanDistance(a, b) <= eps`, expressed without square roots:
`sqrt s ≤ eps ↔ 0 ≤ eps ∧ s ≤ eps²`. -/
def distLE (a b : List ℚ) (eps : ℚ) : Bool :=
  decide (0 ≤ eps) && decide (sqDist a b ≤ eps * eps)

/-- All embeddings have the length of the first one: the condition under
which no `euclideanDistance` call inside `dbscanClustering` throws. -/
def UniformDims (emb : List (List ℚ)) : Prop :=
  ∀ v ∈ emb, v.length = (emb.headD []).length

instance : DecidablePred UniformDims := fun emb =>
  inferInstanceAs (Decidable (∀ v ∈ emb, v.length = (emb.headD []).length))

/-- `calculateClusterCentroid`: element-wise mean over the dimension count of
the first embedding; `none` for an empty input. -/
def calculateClusterCentroid (embeddings : List (List ℚ)) : Option (List ℚ) :=
  match embeddings with
  | [] => none
  | e :: _ =>
    let dims := e.length
    let sums := embeddings.foldl
      (fun acc v => (List.range dims).map fun i => acc.getD i 0 + v.getD i 0)
      (List.replicate dims 0)
    some (sums.map fun x => x / (embeddings.length : ℚ))

/-! ## DensityClusterer (clustering.ts) -/

/-- `getNeighbors`: all indices other than `p` whose embedding lies within
`eps` of embedding `p`. -/
def getNeighbors (emb : List (List ℚ)) (p : ℕ) (eps : ℚ) : List ℕ :=
  (List.range emb.length).filter fun i =>
    i != p && distLE (emb.getD p []) (emb.getD i []) eps

/-- `neighborQueue.push(x)` guarded by `!neighborQueue.includes(x)`. -/
def pushNew (q : List ℕ) (x : ℕ) : List ℕ :=
  if x ∈ q then q else q ++ [x]

/-- The inner expansion loop of `dbscanClustering`: walk the growing
`neighborQueue` from position `j`, absorbing still-unlabelled (`-1`) points
into cluster `cid` and enqueueing the neighbors of points that are
themselves core points.  The queue holds distinct indices `< emb.length`,
so the loop runs at most `emb.length + 1` times; `fuel` is any bound on the
remaining iterations. -/
def expandCluster (emb : List (List ℚ)) (eps : ℚ) (minPts : ℤ) (cid : ℤ) :
    ℕ → List ℤ → List ℕ → ℕ → List ℤ
  | 0, clusters, _, _ => clusters
  | fuel + 1, clusters, queue, j =>
    match queue.get? j with
    | none => clusters
    | some idx =>
      if clusters.getD idx 0 == -1 then
        let clusters2 := clusters.set idx cid
        let nn := getNeighbors emb idx eps
        if minPts ≤ (nn.length : ℤ) then
          expandCluster emb eps minPts cid fuel clusters2 (nn.foldl pushNew queue) (j + 1)
        else
          expandCluster emb eps minPts cid fuel clusters2 queue (j + 1)
      else
        expandCluster emb eps minPts cid fuel clusters queue (j + 1)

/-- One iteration of the outer `for (let i = 0; i < n; i++)` loop of
`dbscanClustering`; the state is the label array and the next cluster id. -/
def dbscanStep (emb : List (List ℚ)) (eps : ℚ) (minPts : ℤ)
    (st : List ℤ × ℤ) (i : ℕ) : List ℤ × ℤ :=
  if st.1.getD i 0 != -1 then st
  else
    let nbrs := getNeighbors emb i eps
    if (nbrs.length : ℤ) < minPts then st
    else
      (expandCluster emb eps minPts st.2
        (emb.length * emb.length + emb.length + 1) (st.1.set i st.2) nbrs 0,
       st.2 + 1)

/-- `dbscanClustering`: labels every input, `-1` for noise, `0, 1, …` for the
clusters in discovery order. -/
def dbscanClustering (emb : List (List ℚ)) (eps : ℚ) (minPts : ℤ) : List ℤ :=
  ((List.range emb.length).foldl (dbscanStep emb eps minPts)
    (List.replicate emb.length (-1), 0)).1

/-! ## groupByCluster (clustering.ts)

A JavaScript `Map` is an insertion-ordered association list: a fresh key is
appended at the end, a push to an existing key keeps its position. -/

/-- `clusters.get(k).push(v)`, creating the entry when the key is new. -/
def mapPush {α : Type} (m : List (ℤ × List α)) (k : ℤ) (v : α) :
    List (ℤ × List α) :=
  if m.any fun p => p.1 == k then
    m.map fun p => if p.1 == k then (p.1, p.2 ++ [v]) else p
  else m ++ [(k, [v])]

/-- `groupByCluster`: bucket `items[i]` under `clusterIds[i]`, skipping noise
(`-1`); the call sites always pass lists of equal length. -/
def groupByCluster {α : Type} (items : List α) (clusterIds : List ℤ) :
    List (ℤ × List α) :=
  (items.zip clusterIds).foldl
    (fun m p => if p.2 == -1 then m else mapPush m p.2 p.1) []

/-! ## Strings

JavaScript strings and SQLite `TEXT` values are modelled as `List Char`
(`Str`), on which all operations reduce structurally.  Case folding
(`.toLowerCase()`, `COLLATE NOCASE`, SQLite's case-insensitive `LIKE`) is
character-wise `Char.toLower`; the subject names in play are ASCII, where the
three agree. -/

/-- A JavaScript / SQLite string. -/
abbrev Str := List Char

/-- `.toLowerCase()` / `LOWER(...)` / `NOCASE` case folding. -/
def lowerStr (s : Str) : Str := s.map Char.toLower

/-- `.trim()`: strip leading and trailing whitespace. -/
def trimStr (s : Str) : Str :=
  ((s.dropWhile Char.isWhitespace).reverse.dropWhile Char.isWhitespace).reverse

/-- `name.split(' ')[0]`: the characters before the first space. -/
def firstToken (s : Str) : Str := s.takeWhile (· != ' ')

/-- `pat` occurs as a contiguous substring of `s` (both already
case-folded by the caller): the meat of SQLite `LIKE '%pat%'`. -/
def hasSubstring (pat : Str) : Str → Bool
  | [] => pat.isEmpty
  | c :: t => pat.isPrefixOf (c :: t) || hasSubstring pat t

/-- SQLite `subject LIKE '%pat%'` (default `LIKE` is case-insensitive). -/
def likeContains (subject pat : Str) : Bool :=
  hasSubstring (lowerStr pat) (lowerStr subject)

/-! ## Data model: the rows of `wafer.db` that the tools read and write.

Tables are Lean lists in table (rowid) order; a SQL `db.get` returning the
first row of an un-`ORDER`ed query is `List.find?`.  The `updated_at`
column (a wall-clock timestamp refreshed by the upsert) is outside the
shallow embedding and omitted; no claim depends on it. -/

structure SubjectRow where
  id : ℤ
  subject : Str
  type : Str
deriving DecidableEq

structure SourceRow where
  id : ℤ
  source_text : Str
  tags : Str
  dates : Str
  group_id : ℤ
  alias_id : Option ℤ
deriving DecidableEq

structure SourceGroupRow where
  id : ℤ
  mapping_id : ℤ
  vector : Option (List ℚ)
  tags : Str
deriving DecidableEq

structure MappingRow where
  id : ℤ
  type : Str
  app_name : Option Str
  db_filename : Option Str
  table_name : Option Str
deriving DecidableEq

structure SourceSubjectRow where
  source_id : ℤ
  subject_id : ℤ
deriving DecidableEq

structure RelRow where
  subject_1 : ℤ
  subject_2 : ℤ
  relationship_summary : Option Str
deriving DecidableEq

structure Db where
  subjects : List SubjectRow
  sources : List SourceRow
  source_groups : List SourceGroupRow
  source_subjects : List SourceSubjectRow
  mappings : List MappingRow
  subject_relationships : List RelRow
deriving DecidableEq

/-- The row type assembled by `dbscanClusterSubjectEmbeddings` from one row
of its join query; `mapping` is `none` when the `LEFT JOIN` finds no
mapping row. -/
structure JoinedSourceGroup where
  sourceGroup : SourceGroupRow
  source : SourceRow
  mapping : Option MappingRow
deriving DecidableEq

/-! ## EntityResolver

`SELECT id, subject FROM subjects WHERE subject = ? COLLATE NOCASE` followed,
on a miss, by the fuzzy query

```
SELECT id, subject, CASE WHEN subject LIKE fullPat THEN 1
                         WHEN subject LIKE tokenPat THEN 2 ELSE 3 END
  AS match_priority FROM subjects
 WHERE subject LIKE fullPat OR subject LIKE tokenPat
 ORDER BY match_priority, LENGTH(subject) LIMIT 1
```

with `fullPat = %name%` and `tokenPat = %name.split(' ')[0]%`.  `db.get`
takes the first row of the ordered result; on rows tied in both sort keys
SQLite yields them in scan (table) order, so the returned row is the
scan-order-first minimizer of `(match_priority, LENGTH(subject))`. -/

/-- The exact (`COLLATE NOCASE`) lookup; `find?` is `db.get`'s first row. -/
def findExactSubject (db : Db) (name : Str) : Option SubjectRow :=
  db.subjects.find? fun r => lowerStr r.subject == lowerStr name

/-- The `CASE` expression computing `match_priority`. -/
def matchPriority (name : Str) (r : SubjectRow) : ℕ :=
  if likeContains r.subject name then 1
  else if likeContains r.subject (firstToken name) then 2
  else 3

/-- The fuzzy query's `WHERE` clause. -/
def fuzzyMatches (name : Str) (r : SubjectRow) : Bool :=
  likeContains r.subject name || likeContains r.subject (firstToken name)

/-- `a` sorts strictly before `b` under
`ORDER BY match_priority, LENGTH(subject)`. -/
def rankedBefore (name : Str) (a b : SubjectRow) : Bool :=
  matchPriority name a < matchPriority name b ||
    (matchPriority name a == matchPriority name b &&
      a.subject.length < b.subject.length)

/-- First row of the ordered fuzzy query: the scan-order-first minimizer of
`(match_priority, LENGTH(subject))` among matching rows.  (`LIMIT 1` /
`LIMIT 20` + `db.get` both take only this first row.) -/
def fuzzyBestSubject (db : Db) (name : Str) : Option SubjectRow :=
  (db.subjects.filter (fuzzyMatches name)).foldl
    (fun best r =>
      match best with
      | none => some r
      | some b => if rankedBefore name r b then some r else best)
    none

/-- `findSubjectIdByName` of the `FindSourcesBySubject` tool: exact
(`NOCASE`) match first, fuzzy ranked match on a miss. -/
def findSubjectIdByName (db : Db) (name : Str) : Option ℤ :=
  match findExactSubject db name with
  | some r => some r.id
  | none => (fuzzyBestSubject db name).map (·.id)

/-! ## FindSubjectRelationship: name-pair resolution -/

/-- `findSubjectIdsByName` + `findBestMatchingSubjects`: resolve both names
with the exact query, fall back to the fuzzy query for whichever missed,
and fail naming the first side that still has no row. -/
def findSubjectIdsByName (db : Db) (n1 n2 : Str) : Except Str (ℤ × ℤ) :=
  let r1 := findExactSubject db n1
  let r2 := findExactSubject db n2
  match r1, r2 with
  | some a, some b => .ok (a.id, b.id)
  | _, _ =>
    let f1 := match r1 with
      | some a => some a
      | none => fuzzyBestSubject db n1
    let f2 := match r2 with
      | some b => some b
      | none => fuzzyBestSubject db n2
    match f1 with
    | none => .error ("No matching subject found for \"".toList ++ n1 ++ "\"".toList)
    | some a =>
      match f2 with
      | none => .error ("No matching subject found for \"".toList ++ n2 ++ "\"".toList)
      | some b => .ok (a.id, b.id)

/-- `subject1Id < subject2Id ? [subject1Id, subject2Id] : [subject2Id,
subject1Id]` — the canonical ordering applied before both the cache query
and the upsert. -/
def canonicalPair (a b : ℤ) : ℤ × ℤ := if a < b then (a, b) else (b, a)

/-- `SELECT relationship_summary FROM subject_relationships WHERE subject_1
= ? AND subject_2 = ?`, first row. -/
def relLookup (db : Db) (firstId secondId : ℤ) : Option RelRow :=
  db.subject_relationships.find? fun r =>
    r.subject_1 == firstId && r.subject_2 == secondId

/-- The cache-hit test `if (row && row.relationship_summary)`: a row whose
summary is SQL `NULL` or the empty string (both falsy) is a miss. -/
def cachedSummary (db : Db) (firstId secondId : ℤ) : Option Str :=
  match relLookup db firstId secondId with
  | none => none
  | some row =>
    match row.relationship_summary with
    | none => none
    | some t => if t.isEmpty then none else some t

/-- `INSERT INTO subject_relationships ... ON CONFLICT(subject_1, subject_2)
DO UPDATE SET relationship_summary = excluded.relationship_summary`:
upsert keyed on the (unique) pair of columns. -/
def updateSubjectRelationship (db : Db) (firstId secondId : ℤ)
    (summary : Option Str) : Db :=
  { db with subject_relationships :=
      if db.subject_relationships.any fun r =>
          r.subject_1 == firstId && r.subject_2 == secondId then
        db.subject_relationships.map fun r =>
          if r.subject_1 == firstId && r.subject_2 == secondId then
            { r with relationship_summary := summary }
          else r
      else db.subject_relationships ++ [⟨firstId, secondId, summary⟩] }

/-! ## FindSubjectRelationship: shared-evidence retrieval and clustering -/

/-- Number of distinct strings in a list. -/
def distinctCount : List Str → ℕ
  | [] => 0
  | a :: t => (if a ∈ t then 0 else 1) + distinctCount t

/-- `LOWER(sub.subject)` over the join `source_subjects ss JOIN subjects sub
ON ss.subject_id = sub.id` restricted to `ss.source_id = sid`. -/
def mentionedLoweredNames (db : Db) (sid : ℤ) : List Str :=
  (db.source_subjects.filter fun ss => ss.source_id == sid).filterMap
    fun ss =>
      (db.subjects.find? fun sub => sub.id == ss.subject_id).map
        fun sub => lowerStr sub.subject

/-- `HAVING COUNT(DISTINCT LOWER(sub.subject)) = wantCount` over the rows
passing `WHERE LOWER(sub.subject) IN (lowered…)`, for the row group
`GROUP BY s.id` of one source. -/
def sourceQualifies (db : Db) (lowered : List Str) (wantCount : ℕ)
    (s : SourceRow) : Bool :=
  distinctCount ((mentionedLoweredNames db s.id).filter (· ∈ lowered)) == wantCount

/-- `JOIN source_groups g ON s.group_id = g.id` (group ids are unique). -/
def groupFor (db : Db) (s : SourceRow) : Option SourceGroupRow :=
  db.source_groups.find? fun g => g.id == s.group_id

/-- Insertion step of the `ORDER BY s.id` sort. -/
def insertById (s : SourceRow) : List SourceRow → List SourceRow
  | [] => [s]
  | t :: ts => if s.id ≤ t.id then s :: t :: ts else t :: insertById s ts

/-- `ORDER BY s.id` on the sources table. -/
def sortById (l : List SourceRow) : List SourceRow := l.foldr insertById []

/-- The result rows of the shared-evidence query of
`dbscanClusterSubjectEmbeddings`: one row per source (`GROUP BY s.id`, in
`ORDER BY s.id` order) whose group has a non-null embedding and whose
distinct lowered mentioned subjects cover the whole query list. -/
def qualifyingRows (db : Db) (queryNames : List Str) : List JoinedSourceGroup :=
  let lowered := queryNames.map lowerStr
  (sortById db.sources).filterMap fun s =>
    match groupFor db s with
    | none => none
    | some g =>
      if g.vector.isSome && sourceQualifies db lowered queryNames.length s then
        some ⟨g, s, db.mappings.find? fun m => m.id == g.mapping_id⟩
      else none

/-- `dbscanClusterSubjectEmbeddings`: run the shared-evidence query, cluster
the embeddings, group rows by label and emit each group with its centroid.
(A stored embedding is already a vector here, so the `JSON.parse` failure
path — `MalformedEmbedding` — has no model.) -/
def dbscanClusterSubjectEmbeddings (db : Db) (subjects : List Str)
    (eps : ℚ) (minPts : ℤ) : List (List JoinedSourceGroup × List ℚ) :=
  if subjects.isEmpty then []
  else
    let rows := qualifyingRows db subjects
    if rows.isEmpty then []
    else
      let sourceGroups := rows.filterMap fun r =>
        r.sourceGroup.vector.map fun v => (r, v)
      if sourceGroups.isEmpty then []
      else
        let vectors := sourceGroups.map Prod.snd
        let clusterIds := dbscanClustering vectors eps minPts
        let clusters := groupByCluster sourceGroups clusterIds
        clusters.filterMap fun p =>
          (calculateClusterCentroid (p.2.map Prod.snd)).map fun c =>
            (p.2.map Prod.fst, c)

/-! ## FindSubjectRelationship: sampling, summarization, orchestration -/

/-- The per-cluster sampling loop: `samplesToTake = Math.min(5, n)` texts
from the front of the cluster, in member order. -/
def sampleClusterTexts (cl : List JoinedSourceGroup) : List Str :=
  (List.range (min 5 cl.length)).filterMap fun i =>
    (cl.get? i).map fun j => j.source.source_text

/-- Newline between strings. -/
def nlChar : Str := ['\n']

/-- Template-literal indentation of the prompt body. -/
def ind : Str := "        ".toList

/-- `createSubjectUnderstandingPrompt`: the literal prompt text, with the
main-user variant when either raw name is exactly `"Sam Hall"`. -/
def createSubjectUnderstandingPrompt (sources subject1 subject2 : Str) : Str :=
  let mainUser : Str := "Sam Hall".toList
  let isMainUserInvolved := subject1 == mainUser || subject2 == mainUser
  let otherSubject := if subject1 == mainUser then subject2 else subject1
  if isMainUserInvolved then
    List.intercalate nlChar
      [nlChar ++ ind ++ "### Your job is to understand the relationship between the main user, ".toList
         ++ mainUser ++ ", and the person being referenced: ".toList ++ otherSubject ++ ".".toList,
       [],
       ind ++ "### Context:".toList,
       ind ++ "- The 'Sources' you're being shown are from various databases with various Android applications belonging to ".toList
         ++ mainUser ++ ".".toList,
       ind ++ "- The data was sampled to have high variance and is not representative of the entirety of the data.".toList,
       ind ++ "- Since ".toList ++ otherSubject ++ " appears in ".toList ++ mainUser
         ++ "'s data, they have some relationship to ".toList ++ mainUser ++ ".".toList,
       [],
       ind ++ "### Instructions:".toList,
       ind ++ "- Provide a concise yet versatile description of the relationship between ".toList
         ++ mainUser ++ " and ".toList ++ otherSubject ++ ".".toList,
       ind ++ "- Keep descriptions roughly a paragraph long (there should never be any newlines in your description).".toList,
       ind ++ "- Don't use any filler language.".toList,
       ind ++ "- Never introduce any bias or opinion; they should be purely factual.".toList,
       [],
       ind ++ "### Sources:".toList,
       ind ++ sources]
  else
    List.intercalate nlChar
      [nlChar ++ ind ++ "### Your job is to understand the relationship between ".toList
         ++ subject1 ++ " and ".toList ++ subject2 ++ ".".toList,
       [],
       ind ++ "### Context:".toList,
       ind ++ "- The 'Sources' you're being shown are from various databases with various Android applications.".toList,
       ind ++ "- The data was sampled to have high variance and is not representative of the entirety of the data.".toList,
       [],
       ind ++ "### Instructions:".toList,
       ind ++ "- Provide a concise yet versatile description of the relationship between ".toList
         ++ subject1 ++ " and ".toList ++ subject2 ++ ".".toList,
       ind ++ "- Keep descriptions roughly a paragraph long (there should never be any newlines in your description).".toList,
       ind ++ "- Don't use any filler language.".toList,
       ind ++ "- Never introduce any bias or opinion; they should be purely factual.".toList,
       [],
       ind ++ "### Sources:".toList,
       ind ++ sources]

/-- `AbortSignal.timeout(30000)`: the timeout, in milliseconds, passed to
the summarizer call. -/
def relationshipSummaryTimeoutMs : ℕ := 30000

/-- The external text-generation backend: a prompt and a timeout in, a
summary or a failure (backend error or timeout) out. -/
def GeminiOracle : Type := Str → ℕ → Except Str Str

/-- `callGeminiForRelationshipSummary`: one summarizer call under
`relationshipSummaryTimeoutMs`; a thrown error is rewrapped, an empty
response text falls back to a fixed message. -/
def callGeminiForRelationshipSummary (oracle : GeminiOracle) (prompt : Str) :
    Except Str Str :=
  match oracle prompt relationshipSummaryTimeoutMs with
  | .error m => .error ("Failed to generate relationship summary: ".toList ++ m)
  | .ok t => .ok (if t.isEmpty then "Unable to generate relationship summary".toList else t)

/-- The hardcoded `mainUserId = 1`. -/
def mainUserId : ℤ := 1

/-- The subject-name list handed to the clusterer: one name when either
canonical id is the main user's, both otherwise. -/
def clusterQueryNames (firstId secondId : ℤ) (n1 n2 : Str) : List Str :=
  if firstId == mainUserId then [n2]
  else if secondId == mainUserId then [n1]
  else [n1, n2]

/-- `generateRelationshipSummary`: cluster shared evidence with `eps = 0.2`,
`minPoints = 2` (`0.2` is exactly `1/5` here; only comparisons exact at the
inputs considered depend on it), return `none` on an empty cluster list,
otherwise sample up to 5 texts per cluster, build the prompt and call the
summarizer. -/
def generateRelationshipSummary (oracle : GeminiOracle) (db : Db)
    (firstId secondId : ℤ) (n1 n2 : Str) : Except Str (Option Str) :=
  let cl := dbscanClusterSubjectEmbeddings db
    (clusterQueryNames firstId secondId n1 n2) (1 / 5) 2
  if cl.isEmpty then .ok none
  else
    let sampled := cl.foldl (fun acc p => acc ++ sampleClusterTexts p.1) []
    let sourcesText := List.intercalate nlChar sampled
    match callGeminiForRelationshipSummary oracle
        (createSubjectUnderstandingPrompt sourcesText n1 n2) with
    | .error e => .error e
    | .ok s => .ok (some s)

/-- JavaScript `x || dflt` on an optional string. -/
def jsOrDefault (o : Option Str) (dflt : Str) : Str :=
  match o with
  | some s => if s.isEmpty then dflt else s
  | none => dflt

/-- `getOrCreateSubjectRelationship`: resolve both names, canonicalize the
id pair, return a cached non-empty summary if present, otherwise generate —
and, unless generation failed, upsert the (possibly `null`) result and
return it (or the no-shared-sources message).  The returned `Db` is the
relationship store after the call. -/
def getOrCreateSubjectRelationship (oracle : GeminiOracle) (db : Db)
    (n1 n2 : Str) : Except Str Str × Db :=
  match findSubjectIdsByName db n1 n2 with
  | .error e => (.error e, db)
  | .ok (id1, id2) =>
    let fs := canonicalPair id1 id2
    match cachedSummary db fs.1 fs.2 with
    | some s => (.ok s, db)
    | none =>
      match generateRelationshipSummary oracle db fs.1 fs.2 n1 n2 with
      | .error e => (.error e, db)
      | .ok summaryOpt =>
        (.ok (jsOrDefault summaryOpt "No shared sources found".toList),
         updateSubjectRelationship db fs.1 fs.2 summaryOpt)

/-- `validateToolParams` of `FindSubjectRelationship` (after the external
JSON-schema check): reject empty names and names equal after
trim-then-lowercase. -/
def validateToolParams (subject_1 subject_2 : Str) : Option Str :=
  if (trimStr subject_1).isEmpty then some "subject_1 cannot be empty".toList
  else if (trimStr subject_2).isEmpty then some "subject_2 cannot be empty".toList
  else if lowerStr (trimStr subject_1) == lowerStr (trimStr subject_2) then
    some "subject_1 and subject_2 must be different".toList
  else none

/-! ## Statement-level views of the code above -/

/-- The cache read path of `getOrCreateSubjectRelationship`: canonicalize
the id pair, then run the `SELECT` on it. -/
def relGet (db : Db) (a b : ℤ) : Option RelRow :=
  relLookup db (canonicalPair a b).1 (canonicalPair a b).2

/-- The cache write path of `getOrCreateSubjectRelationship`: canonicalize
the id pair, then run the upsert on it. -/
def relPut (db : Db) (a b : ℤ) (summary : Option Str) : Db :=
  updateSubjectRelationship db (canonicalPair a b).1 (canonicalPair a b).2 summary

/-- Number of stored rows carrying the canonical key of the unordered pair
`{a, b}`. -/
def countPair (db : Db) (a b : ℤ) : ℕ :=
  (db.subject_relationships.filter fun r =>
    r.subject_1 == (canonicalPair a b).1 && r.subject_2 == (canonicalPair a b).2).length

/-- The labels of `pairs`, each at its first occurrence, noise excluded:
the order in which a JavaScript `Map` built by `groupByCluster` lists its
keys.  `seen` holds the keys already present. -/
def firstLabels {α : Type} (seen : List ℤ) : List (α × ℤ) → List ℤ
  | [] => []
  | (_, k) :: t =>
    if k = -1 ∨ k ∈ seen then firstLabels seen t
    else k :: firstLabels (k :: seen) t

/-- The items of `items` whose label is `c`, in input order. -/
def labelMembers {α : Type} (items : List α) (ids : List ℤ) (c : ℤ) : List α :=
  ((items.zip ids).filter fun p => p.2 == c).map Prod.fst

/-- A source record qualifies for the shared-evidence query: its group has
an embedding and its distinct lowered mentioned subjects cover the query
list. -/
def recordQualifies (db : Db) (queryNames : List Str) (s : SourceRow) : Bool :=
  match groupFor db s with
  | none => false
  | some g => g.vector.isSome &&
      sourceQualifies db (queryNames.map lowerStr) queryNames.length s

/-! ## Concrete instances used by counterexamples and witnesses -/

instance {ε α : Type} [DecidableEq ε] [DecidableEq α] : DecidableEq (Except ε α) := fun x y =>
  match x, y with
  | .ok a, .ok b =>
    if h : a = b then .isTrue (congrArg Except.ok h)
    else .isFalse fun hc => h (Except.ok.inj hc)
  | .error a, .error b =>
    if h : a = b then .isTrue (congrArg Except.error h)
    else .isFalse fun hc => h (Except.error.inj hc)
  | .ok _, .error _ => .isFalse fun hc => Except.noConfusion hc
  | .error _, .ok _ => .isFalse fun hc => Except.noConfusion hc

/-- A summarizer that always fails (backend down / timeout). -/
def oracleFail : GeminiOracle := fun _ _ => .error "backend down".toList

/-- A summarizer that always answers `"S"`. -/
def oracleConst : GeminiOracle := fun _ _ => .ok "S".toList

/-- Catalog `{"Sam", "Sam Hall"}`. -/
def samDb : Db :=
  ⟨[⟨1, "Sam".toList, "person".toList⟩, ⟨2, "Sam Hall".toList, "person".toList⟩],
   [], [], [], [], []⟩

/-- One subject `"Jonathan"` (id 7) and a cached summary for the degenerate
pair `(7, 7)`. -/
def jonDb : Db :=
  ⟨[⟨7, "Jonathan".toList, "person".toList⟩],
   [], [], [], [],
   [⟨7, 7, some "SELF".toList⟩]⟩

/-- Two resolvable subjects, no sources at all, empty relationship store. -/
def annDb : Db :=
  ⟨[⟨3, "Ann".toList, "person".toList⟩, ⟨4, "Ben".toList, "person".toList⟩],
   [], [], [], [], []⟩

/-- One evidence group (id 10, embedding `[0]`) holding two sources (ids
100, 101), both mentioning both subjects. -/
def evDb : Db :=
  ⟨[⟨2, "Alice".toList, "person".toList⟩, ⟨3, "Bob".toList, "person".toList⟩],
   [⟨100, "t1".toList, [], [], 10, none⟩, ⟨101, "t2".toList, [], [], 10, none⟩],
   [⟨10, 0, some [0], []⟩],
   [⟨100, 2⟩, ⟨100, 3⟩, ⟨101, 2⟩, ⟨101, 3⟩],
   [], []⟩

/-- Six one-source groups with 1-dimensional embeddings `100, 0, 1/2, 1,
101, 102` (source ids 1–6), all mentioning both subjects: source 1 is not a
core point at `eps = 1`, `minPoints = 2`, but is absorbed into the cluster
discovered second. -/
def sixDb : Db :=
  ⟨[⟨2, "Alice".toList, "person".toList⟩, ⟨3, "Bob".toList, "person".toList⟩],
   [⟨1, "s1".toList, [], [], 21, none⟩, ⟨2, "s2".toList, [], [], 22, none⟩,
    ⟨3, "s3".toList, [], [], 23, none⟩, ⟨4, "s4".toList, [], [], 24, none⟩,
    ⟨5, "s5".toList, [], [], 25, none⟩, ⟨6, "s6".toList, [], [], 26, none⟩],
   [⟨21, 0, some [100], []⟩, ⟨22, 0, some [0], []⟩, ⟨23, 0, some [1/2], []⟩,
    ⟨24, 0, some [1], []⟩, ⟨25, 0, some [101], []⟩, ⟨26, 0, some [102], []⟩],
   [⟨1, 2⟩, ⟨1, 3⟩, ⟨2, 2⟩, ⟨2, 3⟩, ⟨3, 2⟩, ⟨3, 3⟩,
    ⟨4, 2⟩, ⟨4, 3⟩, ⟨5, 2⟩, ⟨5, 3⟩, ⟨6, 2⟩, ⟨6, 3⟩],
   [], []⟩

/-- Three one-source groups with 1-dimensional embeddings `0, 1/10, 1/5`
(pairwise within `eps = 0.2`), all mentioning both subjects: the service
defaults `eps = 0.2`, `minPoints = 2` produce one non-empty cluster. -/
def cluDb : Db :=
  ⟨[⟨2, "Alice".toList, "person".toList⟩, ⟨3, "Bob".toList, "person".toList⟩],
   [⟨1, "c1".toList, [], [], 31, none⟩, ⟨2, "c2".toList, [], [], 32, none⟩,
    ⟨3, "c3".toList, [], [], 33, none⟩],
   [⟨31, 0, some [0], []⟩, ⟨32, 0, some [1/10], []⟩, ⟨33, 0, some [1/5], []⟩],
   [⟨1, 2⟩, ⟨1, 3⟩, ⟨2, 2⟩, ⟨2, 3⟩, ⟨3, 2⟩, ⟨3, 3⟩],
   [], []⟩

/-! ## C1 -/

/-- C1, counterexample: on `[[0,0],[0,1],[10,10]]` with `eps = 1.5` and
`minPoints = 2`, `dbscanClustering` does not return `[0, 0, -1]`. -/
theorem dbscan_spec_example_labels_refuted :
    dbscanClustering [[0, 0], [0, 1], [10, 10]] (3 / 2) 2 ≠ [0, 0, -1] := by
  with_unfolding_all decide

/-- C1, amended: on `[[0,0],[0,1],[10,10]]` with `eps = 1.5` and
`minPoints = 2` all three points come back as noise, `[-1, -1, -1]`:
`getNeighbors` excludes the point itself, so each of the two nearby points
has one neighbor, below `minPoints = 2`, and no cluster ever forms. -/
theorem dbscan_spec_example_is_all_noise :
    dbscanClustering [[0, 0], [0, 1], [10, 10]] (3 / 2) 2 = [-1, -1, -1] := by
  with_unfolding_all decide

/-! ## C5, counterexample -/

/-- C5, counterexample: `dbscanClustering` performs no parameter validation:
with `minPoints = 0 ≤ 0` it returns the ordinary label list `[0, 0]`, and
with `eps = -1 < 0` it returns `[-1, -1]` — in neither case does it fail. -/
theorem dbscan_no_param_validation_cex :
    dbscanClustering [[0], [1]] 2 0 = [0, 0] ∧
    dbscanClustering [[0], [1]] (-1) 2 = [-1, -1] := by
  constructor <;> with_unfolding_all decide

/-! ## C2, counterexample -/

/-- C2, counterexample: with two resolvable subjects (ids 3, 4), no evidence
at all and an empty relationship store, the operation returns the non-error
no-shared-sources outcome — but the relationship store is changed: a row
`(3, 4, NULL)` has been inserted. -/
theorem empty_clusters_store_changed_cex :
    (getOrCreateSubjectRelationship oracleFail annDb "Ann".toList "Ben".toList).1
        = .ok "No shared sources found".toList ∧
    (getOrCreateSubjectRelationship oracleFail annDb "Ann".toList "Ben".toList).2.subject_relationships
        = [⟨3, 4, none⟩] ∧
    annDb.subject_relationships = [] := by
  refine ⟨?_, ?_, ?_⟩ <;> with_unfolding_all decide

/-! ## C3, counterexample -/

/-- C3, counterexample: `"Jonathan"` and `"Jona"` are different inputs (the
raw-string pre-check passes), both resolve to entity 7, yet the operation
does not fail with any same-subject error: it proceeds to the cache row for
the degenerate pair `(7, 7)` and returns it. -/
theorem same_entity_resolution_no_failure_cex :
    validateToolParams "Jonathan".toList "Jona".toList = none ∧
    findSubjectIdsByName jonDb "Jonathan".toList "Jona".toList = .ok (7, 7) ∧
    getOrCreateSubjectRelationship oracleFail jonDb "Jonathan".toList "Jona".toList
      = (.ok "SELF".toList, jonDb) := by
  refine ⟨?_, ?_, ?_⟩ <;> with_unfolding_all decide

/-! ## C4, counterexample -/

/-- C4, counterexample: sources 100 and 101 both belong to group 10 and both
qualify, and the query (`GROUP BY s.id`) keeps one row per *source*: group
10 contributes two items — its embedding appears twice in the list handed
to the clusterer — not one. -/
theorem shared_evidence_group_dedup_cex :
    (qualifyingRows evDb ["Alice".toList, "Bob".toList]).map (·.sourceGroup.id)
        = [10, 10] ∧
    (qualifyingRows evDb ["Alice".toList, "Bob".toList]).map (·.sourceGroup.vector)
        = [some [0], some [0]] := by
  constructor <;> with_unfolding_all decide

/-! ## C9, counterexample -/

/-- C9, counterexample: on the six 1-dimensional embeddings of `sixDb`
(`eps = 1`, `minPoints = 2`) the labels are `[1, 0, 0, 0, 1, 1]` — the
point at index 0 is absorbed into cluster 1 — so `groupByCluster` lists
label 1 before label 0 and the pipeline emits the entry of cluster 1
(groups 21, 25, 26) before the entry of cluster 0: not ascending label
order. -/
theorem cluster_emission_order_cex :
    dbscanClustering [[100], [0], [1/2], [1], [101], [102]] 1 2 = [1, 0, 0, 0, 1, 1] ∧
    (groupByCluster [0, 1, 2, 3, 4, 5]
        (dbscanClustering [[100], [0], [1/2], [1], [101], [102]] 1 2)).map Prod.fst
      = [1, 0] ∧
    (dbscanClusterSubjectEmbeddings sixDb ["Alice".toList, "Bob".toList] 1 2).map
        (fun p => p.1.map (·.sourceGroup.id))
      = [[21, 25, 26], [22, 23, 24]] := by
  refine ⟨?_, ?_, ?_⟩ <;> with_unfolding_all decide

/-! ## List label-array helpers -/

theorem getD_set_preserve_ne (l : List ℤ) (idx k : ℕ) (c : ℤ) (hc : c ≠ -1)
    (hk : l.getD k 0 ≠ -1) : (l.set idx c).getD k 0 ≠ -1 := by
  induction l generalizing idx k with
  | nil => simp
  | cons a t ih =>
    cases idx with
    | zero =>
      cases k with
      | zero => simpa using hc
      | succ k => simpa using hk
    | succ idx =>
      cases k with
      | zero => simpa using hk
      | succ k => simpa using ih idx k (by simpa using hk)

theorem getD_set_self (l : List ℤ) (i : ℕ) (c : ℤ) (h : i < l.length) :
    (l.set i c).getD i 0 = c := by
  induction l generalizing i with
  | nil => simp at h
  | cons a t ih =>
    cases i with
    | zero => simp
    | succ i => simpa using ih i (by simpa using h)

theorem expandCluster_length (emb : List (List ℚ)) (eps : ℚ) (minPts : ℤ) (cid : ℤ) :
    ∀ (fuel : ℕ) (clusters : List ℤ) (queue : List ℕ) (j : ℕ),
      (expandCluster emb eps minPts cid fuel clusters queue j).length = clusters.length := by
  intro fuel
  induction fuel with
  | zero => intro clusters queue j; rfl
  | succ n ih =>
    intro clusters queue j
    rw [expandCluster]
    cases hq : queue.get? j with
    | none => rfl
    | some idx =>
      dsimp only
      by_cases hcl : (clusters.getD idx 0 == -1) = true
      · rw [if_pos hcl]
        by_cases hnn : minPts ≤ ((getNeighbors emb idx eps).length : ℤ)
        · rw [if_pos hnn, ih]; exact List.length_set ..
        · rw [if_neg hnn, ih]; exact List.length_set ..
      · rw [if_neg hcl]; exact ih ..

theorem expandCluster_preserve_ne (emb : List (List ℚ)) (eps : ℚ) (minPts : ℤ)
    (cid : ℤ) (hcid : cid ≠ -1) :
    ∀ (fuel : ℕ) (clusters : List ℤ) (queue : List ℕ) (j k : ℕ),
      clusters.getD k 0 ≠ -1 →
      (expandCluster emb eps minPts cid fuel clusters queue j).getD k 0 ≠ -1 := by
  intro fuel
  induction fuel with
  | zero => intro clusters queue j k hk; exact hk
  | succ n ih =>
    intro clusters queue j k hk
    rw [expandCluster]
    cases hq : queue.get? j with
    | none => exact hk
    | some idx =>
      dsimp only
      by_cases hcl : (clusters.getD idx 0 == -1) = true
      · rw [if_pos hcl]
        by_cases hnn : minPts ≤ ((getNeighbors emb idx eps).length : ℤ)
        · rw [if_pos hnn]
          exact ih _ _ _ _ (getD_set_preserve_ne _ _ _ _ hcid hk)
        · rw [if_neg hnn]
          exact ih _ _ _ _ (getD_set_preserve_ne _ _ _ _ hcid hk)
      · rw [if_neg hcl]; exact ih _ _ _ _ hk

theorem dbscanStep_inv (emb : List (List ℚ)) (eps : ℚ) (minPts : ℤ) (hmp : minPts ≤ 0)
    (st : List ℤ × ℤ) (i : ℕ) (hi : i < emb.length)
    (hlen : st.1.length = emb.length) (hcid : 0 ≤ st.2)
    (hprev : ∀ j, j < i → st.1.getD j 0 ≠ -1) :
    (dbscanStep emb eps minPts st i).1.length = emb.length ∧
    0 ≤ (dbscanStep emb eps minPts st i).2 ∧
    ∀ j, j < i + 1 → (dbscanStep emb eps minPts st i).1.getD j 0 ≠ -1 := by
  unfold dbscanStep
  by_cases hcur : (st.1.getD i 0 != -1) = true
  · rw [if_pos hcur]
    refine ⟨hlen, hcid, ?_⟩
    intro j hj
    rcases Nat.lt_succ_iff_lt_or_eq.mp hj with h | h
    · exact hprev j h
    · subst h; simpa using hcur
  · rw [if_neg hcur]
    dsimp only
    have hlt : ¬ (((getNeighbors emb i eps).length : ℤ) < minPts) := by
      have h0 : (0:ℤ) ≤ ((getNeighbors emb i eps).length : ℤ) := Int.ofNat_nonneg _
      omega
    rw [if_neg hlt]
    have hcid' : st.2 ≠ -1 := by omega
    refine ⟨?_, by dsimp only; omega, ?_⟩
    · rw [expandCluster_length, List.length_set]; exact hlen
    · intro j hj
      rcases Nat.lt_succ_iff_lt_or_eq.mp hj with h | h
      · exact expandCluster_preserve_ne _ _ _ _ hcid' _ _ _ _ _
          (getD_set_preserve_ne _ _ _ _ hcid' (hprev j h))
      · subst h
        apply expandCluster_preserve_ne _ _ _ _ hcid'
        rw [getD_set_self]
        · exact hcid'
        · rw [hlen]; exact hi

theorem dbscanFold_inv (emb : List (List ℚ)) (eps : ℚ) (minPts : ℤ) (hmp : minPts ≤ 0) :
    ∀ m, m ≤ emb.length →
      (((List.range m).foldl (dbscanStep emb eps minPts)
          (List.replicate emb.length (-1), 0)).1.length = emb.length) ∧
      (0 ≤ ((List.range m).foldl (dbscanStep emb eps minPts)
          (List.replicate emb.length (-1), 0)).2) ∧
      ∀ j, j < m → ((List.range m).foldl (dbscanStep emb eps minPts)
          (List.replicate emb.length (-1), 0)).1.getD j 0 ≠ -1 := by
  intro m
  induction m with
  | zero =>
    intro _
    refine ⟨by simp, by simp, ?_⟩
    intro j hj
    exact absurd hj (Nat.not_lt_zero j)
  | succ m ih =>
    intro hm
    rw [List.range_succ, List.foldl_append, List.foldl_cons, List.foldl_nil]
    obtain ⟨h1, h2, h3⟩ := ih (by omega)
    exact dbscanStep_inv emb eps minPts hmp _ m (by omega) h1 h2 h3

theorem dbscan_minPts_nonpos (emb : List (List ℚ)) (eps : ℚ) (minPts : ℤ)
    (hmp : minPts ≤ 0) : ∀ l ∈ dbscanClustering emb eps minPts, l ≠ -1 := by
  intro l hl
  obtain ⟨h1, _, h3⟩ := dbscanFold_inv emb eps minPts hmp emb.length le_rfl
  unfold dbscanClustering at hl
  obtain ⟨⟨k, hk⟩, hget⟩ := List.mem_iff_get.mp hl
  have hk' : k < emb.length := h1 ▸ hk
  have hD := h3 k hk'
  rw [List.getD_eq_getElem?_getD, List.getElem?_eq_getElem hk, List.get_eq_getElem] at *
  rw [← hget]
  simpa using hD

theorem getNeighbors_eps_neg (emb : List (List ℚ)) (p : ℕ) (eps : ℚ) (h : eps < 0) :
    getNeighbors emb p eps = [] := by
  simp only [getNeighbors, distLE]
  rw [List.filter_eq_nil_iff]
  intro a _
  simp [decide_eq_false (not_le.mpr h)]

theorem dbscanStep_eps_neg (emb : List (List ℚ)) (eps : ℚ) (minPts : ℤ)
    (st : List ℤ × ℤ) (i : ℕ) (heps : eps < 0) (hmp : 1 ≤ minPts) :
    dbscanStep emb eps minPts st i = st := by
  unfold dbscanStep
  by_cases hcur : (st.1.getD i 0 != -1) = true
  · rw [if_pos hcur]
  · rw [if_neg hcur]
    dsimp only
    rw [getNeighbors_eps_neg emb i eps heps]
    have h0 : ((([] : List ℕ).length : ℤ) < minPts) := by simp; omega
    rw [if_pos h0]

theorem dbscan_eps_neg (emb : List (List ℚ)) (eps : ℚ) (minPts : ℤ)
    (heps : eps < 0) (hmp : 1 ≤ minPts) :
    dbscanClustering emb eps minPts = List.replicate emb.length (-1) := by
  unfold dbscanClustering
  have hfix : ∀ (l : List ℕ) (st : List ℤ × ℤ),
      l.foldl (dbscanStep emb eps minPts) st = st := by
    intro l
    induction l with
    | nil => intro st; rfl
    | cons a t ih =>
      intro st
      rw [List.foldl_cons, dbscanStep_eps_neg _ _ _ _ _ heps hmp]
      exact ih st
  rw [hfix]

/-! ## C5 -/

/-- C5, amended: `dbscanClustering` performs no parameter validation and
never fails (for inputs of uniform dimension, where the source throws no
`DimensionMismatch` either): with `minPoints ≤ 0` it returns a label list
in which every point is clustered (no label is `-1`), and with `eps < 0`
(and `minPoints ≥ 1`) it returns a label list in which every point is noise
(`-1`) — instead of rejecting either parameter with `InvalidParameter`. -/
theorem dbscan_no_param_validation_behavior (emb : List (List ℚ)) (eps : ℚ)
    (minPts : ℤ) (hdim : UniformDims emb) :
    (minPts ≤ 0 → ∀ l ∈ dbscanClustering emb eps minPts, l ≠ -1) ∧
    (eps < 0 → 1 ≤ minPts → ∀ l ∈ dbscanClustering emb eps minPts, l = -1) := by
  constructor
  · intro hmp
    exact dbscan_minPts_nonpos emb eps minPts hmp
  · intro heps hmp l hl
    rw [dbscan_eps_neg emb eps minPts heps hmp] at hl
    exact List.eq_of_mem_replicate hl

/-- C5 witness: the amended behavior at `[[0], [1]]`: with `minPoints = 0`
no label is `-1`, with `eps = -1` every label is `-1`. -/
theorem dbscan_no_param_validation_behavior_witness :
    (∀ l ∈ dbscanClustering [[0], [1]] 2 0, l ≠ -1) ∧
    (∀ l ∈ dbscanClustering [[0], [1]] (-1) 2, l = -1) :=
  ⟨(dbscan_no_param_validation_behavior [[0], [1]] 2 0 (by decide)).1 le_rfl,
   (dbscan_no_param_validation_behavior [[0], [1]] (-1) 2 (by decide)).2
     (by norm_num) (by norm_num)⟩

/-! ## groupByCluster machinery -/

theorem lookupAppend {β : Type} (l1 l2 : List (ℤ × β)) (c : ℤ) :
    List.lookup c (l1 ++ l2)
      = ((List.lookup c l1).orElse fun _ => List.lookup c l2) := by
  induction l1 with
  | nil => simp [List.lookup, Option.orElse]
  | cons p t ih =>
    rcases p with ⟨a, b⟩
    by_cases hca : c = a
    · simp [List.lookup, beq_iff_eq.mpr hca, Option.orElse]
    · simp [List.lookup, beq_eq_false_iff_ne.mpr hca, ih]

theorem any_key_false_lookup_none {β : Type} (m : List (ℤ × β)) (k : ℤ)
    (h : (m.any fun p => p.1 == k) = false) : List.lookup k m = none := by
  induction m with
  | nil => rfl
  | cons p t ih =>
    rcases p with ⟨a, b⟩
    simp only [List.any_cons, Bool.or_eq_false_iff] at h
    have hka : ¬ k = a := Ne.symm (beq_eq_false_iff_ne.mp h.1)
    simp [List.lookup, beq_eq_false_iff_ne.mpr hka, ih h.2]

theorem any_key_true_lookup_isSome {β : Type} (m : List (ℤ × β)) (k : ℤ)
    (h : (m.any fun p => p.1 == k) = true) : (List.lookup k m).isSome = true := by
  induction m with
  | nil => simp [List.any_nil] at h
  | cons p t ih =>
    rcases p with ⟨a, b⟩
    by_cases hak : a = k
    · simp [List.lookup, beq_iff_eq.mpr hak.symm]
    · simp only [List.any_cons, beq_eq_false_iff_ne.mpr hak, Bool.false_or] at h
      simp [List.lookup, beq_eq_false_iff_ne.mpr (Ne.symm hak), ih h]

theorem lookup_map_upd {α : Type} (m : List (ℤ × List α)) (k : ℤ) (v : α) :
    List.lookup k (m.map fun p => if p.1 == k then (p.1, p.2 ++ [v]) else p)
      = (List.lookup k m).map fun ys => ys ++ [v] := by
  induction m with
  | nil => rfl
  | cons p t ih =>
    rcases p with ⟨a, b⟩
    rw [List.map_cons]
    by_cases hak : a = k
    · subst hak
      rw [if_pos (show ((a == a) = true) by simp)]
      simp [List.lookup, ih]
    · rw [if_neg (show ¬ ((a == k) = true) by simp [hak])]
      simpa [List.lookup, beq_eq_false_iff_ne.mpr (Ne.symm hak)] using ih

theorem lookup_mapPush_ne {α : Type} (m : List (ℤ × List α)) (k c : ℤ) (v : α)
    (hck : c ≠ k) : List.lookup c (mapPush m k v) = List.lookup c m := by
  unfold mapPush
  by_cases hany : (m.any fun p => p.1 == k) = true
  · rw [if_pos hany]
    clear hany
    induction m with
    | nil => rfl
    | cons p t ih =>
      rcases p with ⟨a, b⟩
      rw [List.map_cons]
      by_cases hak : a = k
      · subst hak
        rw [if_pos (show ((a == a) = true) by simp)]
        simpa [List.lookup, beq_eq_false_iff_ne.mpr hck] using ih
      · rw [if_neg (show ¬ ((a == k) = true) by simp [hak])]
        by_cases hca : c = a
        · subst hca
          simp [List.lookup]
        · simpa [List.lookup, beq_eq_false_iff_ne.mpr hca] using ih
  · rw [if_neg hany, lookupAppend]
    have h2 : List.lookup c [(k, [v])] = none := by
      simp [List.lookup, beq_eq_false_iff_ne.mpr hck]
    rw [h2]
    cases List.lookup c m <;> rfl

theorem lookup_mapPush_self {α : Type} (m : List (ℤ × List α)) (k : ℤ) (v : α) :
    List.lookup k (mapPush m k v)
      = some ((List.lookup k m).getD [] ++ [v]) := by
  unfold mapPush
  by_cases hany : (m.any fun p => p.1 == k) = true
  · rw [if_pos hany, lookup_map_upd]
    obtain ⟨ys, hys⟩ :=
      Option.isSome_iff_exists.mp (any_key_true_lookup_isSome m k hany)
    rw [hys]
    rfl
  · rw [if_neg hany, lookupAppend,
      any_key_false_lookup_none m k (by rwa [Bool.not_eq_true] at hany)]
    simp [List.lookup]

theorem key_mem_iff_any {β : Type} (m : List (ℤ × β)) (k : ℤ) :
    k ∈ m.map Prod.fst ↔ (m.any fun p => p.1 == k) = true := by
  rw [List.any_eq_true]
  constructor
  · intro hm
    obtain ⟨p, hp, hpk⟩ := List.mem_map.mp hm
    exact ⟨p, hp, by simp [hpk]⟩
  · rintro ⟨p, hp, hk⟩
    rw [beq_iff_eq] at hk
    exact hk ▸ List.mem_map_of_mem _ hp

theorem mapPush_keys_existing {α : Type} (m : List (ℤ × List α)) (k : ℤ) (v : α)
    (h : (m.any fun p => p.1 == k) = true) :
    (mapPush m k v).map Prod.fst = m.map Prod.fst := by
  unfold mapPush
  rw [if_pos h, List.map_map]
  apply List.map_congr_left
  intro p _
  by_cases hp : (p.1 == k) = true
  · rw [Function.comp_apply, if_pos hp]
  · rw [Function.comp_apply, if_neg hp]

theorem mapPush_keys_new {α : Type} (m : List (ℤ × List α)) (k : ℤ) (v : α)
    (h : (m.any fun p => p.1 == k) = false) :
    (mapPush m k v).map Prod.fst = m.map Prod.fst ++ [k] := by
  unfold mapPush
  rw [if_neg (by simp [h])]
  simp

theorem firstLabels_congr {α : Type} :
    ∀ (l : List (α × ℤ)) (s1 s2 : List ℤ),
      (∀ a, a ∈ s1 ↔ a ∈ s2) → firstLabels s1 l = firstLabels s2 l := by
  intro l
  induction l with
  | nil => intro s1 s2 _; rfl
  | cons p t ih =>
    intro s1 s2 h
    rcases p with ⟨x, k⟩
    simp only [firstLabels]
    by_cases hk : k = -1 ∨ k ∈ s1
    · have hk2 : k = -1 ∨ k ∈ s2 := by
        rcases hk with h1 | h1
        · exact Or.inl h1
        · exact Or.inr ((h k).mp h1)
      rw [if_pos hk, if_pos hk2]
      exact ih s1 s2 h
    · have hk2 : ¬ (k = -1 ∨ k ∈ s2) := by
        intro hcon
        rcases hcon with h1 | h1
        · exact hk (Or.inl h1)
        · exact hk (Or.inr ((h k).mpr h1))
      rw [if_neg hk, if_neg hk2]
      congr 1
      apply ih
      intro a
      simp [h a]

theorem neg_one_notin_firstLabels {α : Type} :
    ∀ (l : List (α × ℤ)) (s : List ℤ), (-1 : ℤ) ∉ firstLabels s l := by
  intro l
  induction l with
  | nil => intro s; simp [firstLabels]
  | cons p t ih =>
    intro s
    rcases p with ⟨x, k⟩
    simp only [firstLabels]
    by_cases hk : k = -1 ∨ k ∈ s
    · rw [if_pos hk]; exact ih s
    · rw [if_neg hk]
      intro hmem
      rcases List.mem_cons.mp hmem with h1 | h1
      · exact hk (Or.inl h1.symm)
      · exact ih (k :: s) h1

theorem gbc_go_keys {α : Type} :
    ∀ (l : List (α × ℤ)) (m : List (ℤ × List α)),
      (l.foldl (fun m p => if p.2 == -1 then m else mapPush m p.2 p.1) m).map Prod.fst
        = m.map Prod.fst ++ firstLabels (m.map Prod.fst) l := by
  intro l
  induction l with
  | nil => intro m; simp [firstLabels]
  | cons p t ih =>
    intro m
    rcases p with ⟨x, k⟩
    rw [List.foldl_cons]
    by_cases hk1 : k = -1
    · subst hk1
      rw [if_pos (show (((-1 : ℤ) == -1) = true) by simp)]
      rw [ih]
      simp [firstLabels]
    · rw [if_neg (show ¬ ((k == -1) = true) by simp [hk1])]
      by_cases hk2 : k ∈ m.map Prod.fst
      · rw [ih, mapPush_keys_existing _ _ _ ((key_mem_iff_any m k).mp hk2)]
        simp only [firstLabels]
        rw [if_pos (Or.inr hk2)]
      · have hany : (m.any fun p => p.1 == k) = false :=
          Bool.eq_false_iff.mpr fun hc => hk2 ((key_mem_iff_any m k).mpr hc)
        rw [ih, mapPush_keys_new _ _ _ hany]
        simp only [firstLabels]
        rw [if_neg (by tauto)]
        rw [firstLabels_congr t (m.map Prod.fst ++ [k]) (k :: m.map Prod.fst)
          (fun a => by simp [or_comm])]
        simp

theorem gbc_go_lookup {α : Type} (c : ℤ) (hc : c ≠ -1) :
    ∀ (l : List (α × ℤ)) (m : List (ℤ × List α)),
      List.lookup c (l.foldl (fun m p => if p.2 == -1 then m else mapPush m p.2 p.1) m)
        = (if ((l.filter fun p => p.2 == c).map Prod.fst).isEmpty
           then List.lookup c m
           else some ((List.lookup c m).getD []
             ++ (l.filter fun p => p.2 == c).map Prod.fst)) := by
  intro l
  induction l with
  | nil => intro m; simp
  | cons p t ih =>
    intro m
    rcases p with ⟨x, k⟩
    rw [List.foldl_cons, List.filter_cons]
    by_cases hkm1 : k = -1
    · subst hkm1
      rw [if_pos (show (((-1 : ℤ) == -1) = true) by simp)]
      rw [show ((x, (-1 : ℤ)).2 == c) = false by simp [Ne.symm hc]]
      simpa using ih m
    · rw [if_neg (show ¬ ((k == -1) = true) by simp [hkm1])]
      by_cases hkc : k = c
      · subst hkc
        rw [if_pos (show (((x, k).2 == k) = true) by simp)]
        rw [List.map_cons, if_neg (by simp)]
        rw [ih (mapPush m k x), lookup_mapPush_self]
        by_cases hft : ((t.filter fun p => p.2 == k).map Prod.fst).isEmpty = true
        · rw [if_pos hft]
          rw [List.isEmpty_iff] at hft
          rw [hft]
        · rw [if_neg hft]
          simp
      · rw [if_neg (show ¬ (((x, k).2 == c) = true) by simp [hkc])]
        rw [ih (mapPush m k x), lookup_mapPush_ne _ _ _ _ fun h => hkc h.symm]

theorem filterMap_range_get {α β : Type} (g : α → β) :
    ∀ (cl : List α) (m : ℕ),
      (List.range m).filterMap (fun i => (cl.get? i).map g) = (cl.map g).take m := by
  intro cl
  induction cl with
  | nil =>
    intro m
    rw [List.map_nil, List.take_nil]
    refine List.filterMap_eq_nil_iff.mpr ?_
    intro a _
    simp
  | cons x t ih =>
    intro m
    cases m with
    | zero => simp
    | succ m =>
      rw [List.range_succ_eq_map]
      have hstep : List.filterMap (fun i => ((x :: t).get? i).map g)
            (0 :: (List.range m).map Nat.succ)
          = g x :: List.filterMap (fun i => ((x :: t).get? i).map g)
              ((List.range m).map Nat.succ) := rfl
      rw [hstep, List.filterMap_map]
      have hcomp : ((fun i => ((x :: t).get? i).map g) ∘ Nat.succ)
          = fun i => (t.get? i).map g := by
        funext i
        rfl
      rw [hcomp, ih]
      simp

theorem sampleClusterTexts_take (cl : List JoinedSourceGroup) :
    sampleClusterTexts cl = (cl.map fun j => j.source.source_text).take 5 := by
  unfold sampleClusterTexts
  rw [filterMap_range_get]
  refine List.take_eq_take.mpr ?_
  simp only [List.length_map]
  omega

/-! ## C9 -/

/-- C9, amended: noise is never emitted — `-1` is not a key of
`groupByCluster`'s result — and the `(members, centroid)` entries follow
the order in which each cluster label *first appears* among the labelled
items (a JavaScript `Map` preserves insertion order), which coincides with
ascending label order only when earlier-labelled clusters happen to own the
earliest items. -/
theorem groupByCluster_emission_first_occurrence {α : Type}
    (items : List α) (ids : List ℤ) :
    (groupByCluster items ids).map Prod.fst = firstLabels [] (items.zip ids) ∧
    (-1 : ℤ) ∉ (groupByCluster items ids).map Prod.fst := by
  have h1 : (groupByCluster items ids).map Prod.fst
      = firstLabels [] (items.zip ids) := by
    unfold groupByCluster
    rw [gbc_go_keys]
    simp
  exact ⟨h1, h1 ▸ neg_one_notin_firstLabels _ _⟩

/-! ## C10 -/

/-- C10: for equally long item and label lists, the cluster of label
`c ≠ -1` produced by `groupByCluster` holds exactly the items labelled `c`,
in input order (`labelMembers`), and the per-cluster sampling loop takes
exactly the first at-most-5 members in that order. -/
theorem groupByCluster_content_and_sampling {α : Type}
    (items : List α) (ids : List ℤ) (hlen : items.length = ids.length)
    (c : ℤ) (hc : c ≠ -1) :
    (List.lookup c (groupByCluster items ids)
      = if (labelMembers items ids c).isEmpty then none
        else some (labelMembers items ids c)) ∧
    ∀ cl : List JoinedSourceGroup,
      sampleClusterTexts cl = (cl.map fun j => j.source.source_text).take 5 := by
  refine ⟨?_, fun cl => sampleClusterTexts_take cl⟩
  unfold groupByCluster
  rw [gbc_go_lookup c hc]
  unfold labelMembers
  simp [List.lookup]

/-- C10 witness: the cluster of label `0` on items `[10, 20, 30]` with
labels `[0, 0, -1]`. -/
theorem groupByCluster_content_and_sampling_witness :
    List.lookup 0 (groupByCluster ([10, 20, 30] : List ℕ) [0, 0, -1])
      = if (labelMembers ([10, 20, 30] : List ℕ) [0, 0, -1] 0).isEmpty then none
        else some (labelMembers ([10, 20, 30] : List ℕ) [0, 0, -1] 0) :=
  (groupByCluster_content_and_sampling ([10, 20, 30] : List ℕ) [0, 0, -1] rfl 0
    (by decide)).1

/-! ## C4 -/

/-- C4, amended: the shared-evidence query groups per evidence record
(`GROUP BY s.id`), not per group: the row list handed to the clusterer
carries exactly one item per qualifying source record, in ascending
record-id order — so a group with several qualifying records contributes
one item (and one copy of its embedding) per such record. -/
theorem shared_evidence_items_per_record (db : Db) (q : List Str) :
    (qualifyingRows db q).map (·.source)
      = (sortById db.sources).filter (recordQualifies db q) := by
  unfold qualifyingRows
  dsimp only
  generalize (sortById db.sources) = l
  induction l with
  | nil => rfl
  | cons s t ih =>
    rw [List.filterMap_cons, List.filter_cons]
    cases hg : groupFor db s with
    | none =>
      have hpred : recordQualifies db q s = false := by
        unfold recordQualifies
        rw [hg]
      simp only [hg, hpred]
      simpa using ih
    | some g =>
      have hpred : recordQualifies db q s
          = (g.vector.isSome && sourceQualifies db (q.map lowerStr) q.length s) := by
        unfold recordQualifies
        rw [hg]
      by_cases hcond :
          (g.vector.isSome && sourceQualifies db (q.map lowerStr) q.length s) = true
      · simp only [hg, hpred, hcond, if_true]
        simpa using ih
      · simp only [hg, hpred]
        rw [if_neg hcond, if_neg (by simp [hcond])]
        simpa using ih

/-! ## EntityResolver machinery -/

theorem rankedBefore_iff (name : Str) (a b : SubjectRow) :
    rankedBefore name a b = true ↔
      (matchPriority name a < matchPriority name b ∨
       (matchPriority name a = matchPriority name b ∧
        a.subject.length < b.subject.length)) := by
  unfold rankedBefore
  simp [Bool.or_eq_true, Bool.and_eq_true, decide_eq_true_eq, beq_iff_eq]

theorem rankedBefore_irrefl (name : Str) (a : SubjectRow) :
    rankedBefore name a a = false := by
  apply Bool.eq_false_iff.mpr
  intro h
  rw [rankedBefore_iff] at h
  omega

theorem rankedBefore_trans (name : Str) (a b c : SubjectRow)
    (h1 : rankedBefore name a b = true) (h2 : rankedBefore name b c = true) :
    rankedBefore name a c = true := by
  rw [rankedBefore_iff] at h1 h2 ⊢
  omega

theorem fuzzyFold_min (name : Str) :
    ∀ (l : List SubjectRow) (b : SubjectRow),
      ∃ r, (l.foldl (fun best r =>
          match best with
          | none => some r
          | some b => if rankedBefore name r b then some r else best)
          (some b)) = some r ∧
        (r = b ∨ r ∈ l) ∧
        (∀ x, (x = b ∨ x ∈ l) → rankedBefore name x r = false) := by
  intro l
  induction l with
  | nil =>
    intro b
    refine ⟨b, rfl, Or.inl rfl, ?_⟩
    rintro x (rfl | hx)
    · exact rankedBefore_irrefl name x
    · exact absurd hx (List.not_mem_nil x)
  | cons a t ih =>
    intro b
    rw [List.foldl_cons]
    dsimp only
    by_cases hab : rankedBefore name a b = true
    · rw [if_pos hab]
      obtain ⟨r, hr, hmem, hdom⟩ := ih a
      refine ⟨r, hr, ?_, ?_⟩
      · rcases hmem with rfl | h
        · exact Or.inr (List.mem_cons_self _ _)
        · exact Or.inr (List.mem_cons_of_mem _ h)
      · rintro x (rfl | hx)
        · have har := hdom a (Or.inl rfl)
          apply Bool.eq_false_iff.mpr
          intro hbr
          have hcontra := rankedBefore_trans name a x r hab hbr
          rw [har] at hcontra
          cases hcontra
        · rcases List.mem_cons.mp hx with rfl | hx'
          · exact hdom x (Or.inl rfl)
          · exact hdom x (Or.inr hx')
    · rw [if_neg hab]
      obtain ⟨r, hr, hmem, hdom⟩ := ih b
      refine ⟨r, hr, ?_, ?_⟩
      · rcases hmem with rfl | h
        · exact Or.inl rfl
        · exact Or.inr (List.mem_cons_of_mem _ h)
      · rintro x (rfl | hx)
        · exact hdom x (Or.inl rfl)
        · rcases List.mem_cons.mp hx with rfl | hx'
          · apply Bool.eq_false_iff.mpr
            intro har
            have hbr : rankedBefore name b r = true := by
              rw [rankedBefore_iff] at hab har ⊢
              omega
            have hfb := hdom b (Or.inl rfl)
            rw [hbr] at hfb
            cases hfb
          · exact hdom x (Or.inr hx')

theorem fuzzyBestSubject_min (db : Db) (name : Str) (r : SubjectRow)
    (h : fuzzyBestSubject db name = some r) :
    fuzzyMatches name r = true ∧ r ∈ db.subjects ∧ matchPriority name r ≤ 2 ∧
      ∀ r' ∈ db.subjects, fuzzyMatches name r' = true →
        rankedBefore name r' r = false := by
  unfold fuzzyBestSubject at h
  cases hf : db.subjects.filter (fuzzyMatches name) with
  | nil =>
    rw [hf] at h
    cases h
  | cons a t =>
    rw [hf, List.foldl_cons] at h
    dsimp only at h
    obtain ⟨r', hr', hmem, hdom⟩ := fuzzyFold_min name t a
    rw [hr'] at h
    obtain rfl := Option.some.inj h
    have hrcand : r' ∈ db.subjects.filter (fuzzyMatches name) := by
      rw [hf]
      rcases hmem with rfl | hx
      · exact List.mem_cons_self _ _
      · exact List.mem_cons_of_mem _ hx
    have hmatch : fuzzyMatches name r' = true := List.of_mem_filter hrcand
    have hmemdb : r' ∈ db.subjects := List.mem_of_mem_filter hrcand
    refine ⟨hmatch, hmemdb, ?_, ?_⟩
    · unfold matchPriority
      by_cases h1 : (likeContains r'.subject name) = true
      · rw [if_pos h1]
        omega
      · rw [if_neg h1]
        have h2 : (likeContains r'.subject (firstToken name)) = true := by
          unfold fuzzyMatches at hmatch
          rcases Bool.or_eq_true_iff.mp hmatch with hh | hh
          · exact absurd hh h1
          · exact hh
        rw [if_pos h2]
    · intro x hxdb hmx
      have hxc : x ∈ a :: t := hf ▸ List.mem_filter.mpr ⟨hxdb, hmx⟩
      rcases List.mem_cons.mp hxc with rfl | hx
      · exact hdom x (Or.inl rfl)
      · exact hdom x (Or.inr hx)

/-! ## C6 -/

/-- C6: name resolution returns an exact (case-insensitive) catalog match
whenever one exists; on an exact miss it returns the top fuzzy candidate,
which matches at least one pattern (so has tier 1 or 2) and is ranked no
worse than any other matching catalog row under
`(match_priority, LENGTH(subject))`; and catalog `{"Sam", "Sam Hall"}` with
query `"Sam Hall"` resolves to `"Sam Hall"` (id 2), not `"Sam"`. -/
theorem resolver_exact_then_ranked_fuzzy :
    (∀ (db : Db) (name : Str) (r : SubjectRow),
      findExactSubject db name = some r → findSubjectIdByName db name = some r.id) ∧
    (∀ (db : Db) (name : Str), findExactSubject db name = none →
      findSubjectIdByName db name = (fuzzyBestSubject db name).map (·.id) ∧
      ∀ r, fuzzyBestSubject db name = some r →
        fuzzyMatches name r = true ∧ matchPriority name r ≤ 2 ∧
        ∀ r' ∈ db.subjects, fuzzyMatches name r' = true →
          rankedBefore name r' r = false) ∧
    findSubjectIdByName samDb "Sam Hall".toList = some 2 := by
  refine ⟨?_, ?_, by with_unfolding_all decide⟩
  · intro db name r h
    unfold findSubjectIdByName
    rw [h]
  · intro db name h
    constructor
    · unfold findSubjectIdByName
      rw [h]
    · intro r hr
      obtain ⟨h1, _, h3, h4⟩ := fuzzyBestSubject_min db name r hr
      exact ⟨h1, h3, h4⟩

/-- C6 witness: the exact-match clause applied to the catalog
`{"Sam", "Sam Hall"}` and query `"Sam"`. -/
theorem resolver_exact_then_ranked_fuzzy_witness :
    findSubjectIdByName samDb "Sam".toList = some 1 :=
  resolver_exact_then_ranked_fuzzy.1 samDb "Sam".toList
    ⟨1, "Sam".toList, "person".toList⟩ (by with_unfolding_all decide)

/-! ## RelationshipCache machinery -/

theorem canonicalPair_comm (a b : ℤ) : canonicalPair b a = canonicalPair a b := by
  unfold canonicalPair
  rcases lt_trichotomy a b with h | h | h
  · rw [if_neg (by omega), if_pos h]
  · subst h
    rfl
  · rw [if_pos h, if_neg (by omega)]

theorem findAppend {γ : Type} (p : γ → Bool) (l1 l2 : List γ) :
    List.find? p (l1 ++ l2) = (List.find? p l1).orElse fun _ => List.find? p l2 := by
  induction l1 with
  | nil => simp [Option.orElse]
  | cons x t ih =>
    by_cases hx : p x = true
    · rw [List.cons_append, List.find?_cons_of_pos _ hx, List.find?_cons_of_pos _ hx]
      rfl
    · rw [List.cons_append, List.find?_cons_of_neg _ (by simp [hx]),
        List.find?_cons_of_neg _ (by simp [hx]), ih]

theorem findMap {γ δ : Type} (g : γ → δ) (p : δ → Bool) (l : List γ) :
    List.find? p (l.map g) = (List.find? (fun x => p (g x)) l).map g := by
  induction l with
  | nil => rfl
  | cons x t ih =>
    by_cases hx : p (g x) = true
    · rw [List.map_cons, List.find?_cons_of_pos _ hx]
      have h2 : List.find? (fun y : γ => p (g y)) (x :: t) = some x :=
        List.find?_cons_of_pos _ hx
      rw [h2]
      rfl
    · rw [List.map_cons, List.find?_cons_of_neg _ (by simp [hx])]
      have h2 : List.find? (fun y : γ => p (g y)) (x :: t)
          = List.find? (fun y : γ => p (g y)) t :=
        List.find?_cons_of_neg _ (by simpa using hx)
      rw [h2, ih]

theorem upd_preserves_pred (f s : ℤ) (v : Option Str) (r : RelRow) :
    ((if r.subject_1 == f && r.subject_2 == s then
        { r with relationship_summary := v } else r).subject_1 == f &&
     (if r.subject_1 == f && r.subject_2 == s then
        { r with relationship_summary := v } else r).subject_2 == s)
      = (r.subject_1 == f && r.subject_2 == s) := by
  by_cases hr : (r.subject_1 == f && r.subject_2 == s) = true
  · rw [if_pos hr]
  · rw [if_neg hr]

theorem relLookup_update (db : Db) (f s : ℤ) (v : Option Str) :
    ∃ row, relLookup (updateSubjectRelationship db f s v) f s = some row ∧
      row.relationship_summary = v := by
  unfold relLookup updateSubjectRelationship
  dsimp only
  by_cases hany : (db.subject_relationships.any fun r =>
      r.subject_1 == f && r.subject_2 == s) = true
  · rw [if_pos hany, findMap]
    have hcomp : (fun x : RelRow =>
        ((if x.subject_1 == f && x.subject_2 == s then
            { x with relationship_summary := v } else x).subject_1 == f &&
         (if x.subject_1 == f && x.subject_2 == s then
            { x with relationship_summary := v } else x).subject_2 == s))
        = fun r : RelRow => r.subject_1 == f && r.subject_2 == s := by
      funext r
      exact upd_preserves_pred f s v r
    rw [hcomp]
    have hfind : (db.subject_relationships.find? fun r =>
        r.subject_1 == f && r.subject_2 == s).isSome = true := by
      rw [List.find?_isSome]
      obtain ⟨x, hx, hpx⟩ := List.any_eq_true.mp hany
      exact ⟨x, hx, hpx⟩
    obtain ⟨r0, hr0⟩ := Option.isSome_iff_exists.mp hfind
    rw [hr0]
    have hpred := List.find?_some hr0
    refine ⟨_, rfl, ?_⟩
    dsimp only
    rw [if_pos hpred]
  · rw [if_neg hany, findAppend]
    have hnone : db.subject_relationships.find? (fun r =>
        r.subject_1 == f && r.subject_2 == s) = none := by
      rw [List.find?_eq_none]
      intro x hx hpx
      exact hany (List.any_eq_true.mpr ⟨x, hx, hpx⟩)
    rw [hnone]
    refine ⟨⟨f, s, v⟩, ?_, rfl⟩
    simp [List.find?, Option.orElse]

theorem count_after_update (db : Db) (f s : ℤ) (v : Option Str)
    (hle : (db.subject_relationships.filter fun r =>
      r.subject_1 == f && r.subject_2 == s).length ≤ 1) :
    ((updateSubjectRelationship db f s v).subject_relationships.filter
        fun r => r.subject_1 == f && r.subject_2 == s).length = 1 := by
  unfold updateSubjectRelationship
  dsimp only
  by_cases hany : (db.subject_relationships.any fun r =>
      r.subject_1 == f && r.subject_2 == s) = true
  · rw [if_pos hany, List.filter_map]
    rw [List.length_map]
    have hcomp : ((fun r : RelRow => r.subject_1 == f && r.subject_2 == s) ∘
        fun x : RelRow => if x.subject_1 == f && x.subject_2 == s then
          { x with relationship_summary := v } else x)
        = fun r : RelRow => r.subject_1 == f && r.subject_2 == s := by
      funext r
      exact upd_preserves_pred f s v r
    rw [hcomp]
    obtain ⟨x, hx, hpx⟩ := List.any_eq_true.mp hany
    have hpos : 0 < (db.subject_relationships.filter fun r =>
        r.subject_1 == f && r.subject_2 == s).length :=
      List.length_pos_of_mem (List.mem_filter.mpr ⟨hx, hpx⟩)
    omega
  · rw [if_neg hany, List.filter_append]
    have h0 : (db.subject_relationships.filter fun r =>
        r.subject_1 == f && r.subject_2 == s) = [] := by
      rw [List.filter_eq_nil_iff]
      intro x hx hpx
      exact hany (List.any_eq_true.mpr ⟨x, hx, hpx⟩)
    rw [h0]
    simp

/-! ## C7 -/

/-- C7: the cache path canonicalizes the pair to `(min, max)` before both
the read and the write, so for ids `a ≠ b` a `put(a, b, x)` followed by
`get(b, a)` finds a row whose summary is `x`; and provided the store held
at most one row for the pair (the uniqueness the `ON CONFLICT` clause
presupposes), exactly one row for the pair remains after the put — the
upsert overwrites rather than duplicating, so any sequence of puts leaves
one row. -/
theorem relationship_cache_canonical_upsert (db : Db) (a b : ℤ) (x : Str)
    (hab : a ≠ b) (hinv : countPair db a b ≤ 1) :
    ((relGet (relPut db a b (some x)) b a).map (·.relationship_summary)
        = some (some x)) ∧
    countPair (relPut db a b (some x)) a b = 1 := by
  unfold relGet relPut countPair at *
  rw [canonicalPair_comm a b]
  constructor
  · obtain ⟨row, hrow, hsum⟩ := relLookup_update db (canonicalPair a b).1
      (canonicalPair a b).2 (some x)
    rw [hrow]
    rw [Option.map_some']
    rw [hsum]
  · exact count_after_update db (canonicalPair a b).1 (canonicalPair a b).2
      (some x) hinv

/-- C7 witness: `put(5, 2, "x")` then `get(2, 5)` on the store of `annDb`
(which holds no row for the pair). -/
theorem relationship_cache_canonical_upsert_witness :
    ((relGet (relPut annDb 5 2 (some "x".toList)) 2 5).map
        (·.relationship_summary) = some (some "x".toList)) ∧
    countPair (relPut annDb 5 2 (some "x".toList)) 5 2 = 1 :=
  relationship_cache_canonical_upsert annDb 5 2 "x".toList
    (by decide) (by with_unfolding_all decide)

/-! ## C2 -/

/-- C2, amended: when evidence clustering returns an empty cluster list for
the resolved pair, the operation returns the non-error "No shared sources
found" outcome — but the relationship store is not left unchanged: a row
for the canonical pair with a NULL summary is upserted (later lookups still
treat that row as a cache miss, since only non-empty summaries count as
hits). -/
theorem empty_clusters_upserts_null_summary_row (oracle : GeminiOracle)
    (db : Db) (n1 n2 : Str) (i1 i2 : ℤ)
    (hres : findSubjectIdsByName db n1 n2 = .ok (i1, i2))
    (hmiss : cachedSummary db (canonicalPair i1 i2).1 (canonicalPair i1 i2).2 = none)
    (hempty : dbscanClusterSubjectEmbeddings db
      (clusterQueryNames (canonicalPair i1 i2).1 (canonicalPair i1 i2).2 n1 n2)
      (1 / 5) 2 = []) :
    getOrCreateSubjectRelationship oracle db n1 n2
      = (.ok "No shared sources found".toList,
         updateSubjectRelationship db (canonicalPair i1 i2).1
           (canonicalPair i1 i2).2 none) := by
  unfold getOrCreateSubjectRelationship
  rw [hres]
  dsimp only
  rw [hmiss]
  unfold generateRelationshipSummary
  dsimp only
  rw [hempty]
  rfl

/-- C2 witness: the amended behavior on `annDb` (no sources): the null-row
upsert and the non-error outcome. -/
theorem empty_clusters_upserts_null_summary_row_witness :
    getOrCreateSubjectRelationship oracleFail annDb "Ann".toList "Ben".toList
      = (.ok "No shared sources found".toList,
         updateSubjectRelationship annDb (canonicalPair 3 4).1
           (canonicalPair 3 4).2 none) :=
  empty_clusters_upserts_null_summary_row oracleFail annDb
    "Ann".toList "Ben".toList 3 4
    (by with_unfolding_all decide) (by with_unfolding_all decide)
    (by with_unfolding_all decide)

/-! ## C3 -/

/-- C3, amended: the only same-entity guard is the pre-check on the raw
input strings — `validateToolParams` rejects names equal after trimming and
lowercasing — and no check is applied after resolution: when two names
resolve to the same entity id `i`, the operation proceeds with the
degenerate pair `(i, i)` as if it were any other pair (here: it serves the
cached row for `(i, i)`), and never fails with a same-subject error. -/
theorem same_entity_check_only_precheck :
    (∀ s1 s2 : Str, ¬ (trimStr s1).isEmpty = true → ¬ (trimStr s2).isEmpty = true →
      lowerStr (trimStr s1) = lowerStr (trimStr s2) →
      validateToolParams s1 s2
        = some "subject_1 and subject_2 must be different".toList) ∧
    (∀ (oracle : GeminiOracle) (db : Db) (n1 n2 : Str) (i : ℤ) (s : Str),
      findSubjectIdsByName db n1 n2 = .ok (i, i) →
      cachedSummary db i i = some s →
      getOrCreateSubjectRelationship oracle db n1 n2 = (.ok s, db)) := by
  constructor
  · intro s1 s2 h1 h2 heq
    unfold validateToolParams
    rw [if_neg h1, if_neg h2, if_pos (by simp [heq])]
  · intro oracle db n1 n2 i s hres hcache
    unfold getOrCreateSubjectRelationship
    rw [hres]
    dsimp only
    have hci : canonicalPair i i = (i, i) := by
      unfold canonicalPair
      rw [if_neg (lt_irrefl i)]
    rw [hci]
    dsimp only
    rw [hcache]

/-- C3 witness: the pre-check rejects `"Ann"` vs `" ann "`, and two
different strings resolving to entity 7 proceed to the `(7, 7)` cache row
without any same-subject failure. -/
theorem same_entity_check_only_precheck_witness :
    validateToolParams "Ann".toList " ann ".toList
        = some "subject_1 and subject_2 must be different".toList ∧
    getOrCreateSubjectRelationship oracleFail jonDb
        "Jonathan".toList "Jona".toList = (.ok "SELF".toList, jonDb) :=
  ⟨same_entity_check_only_precheck.1 "Ann".toList " ann ".toList
     (by decide) (by decide) (by decide),
   same_entity_check_only_precheck.2 oracleFail jonDb
     "Jonathan".toList "Jona".toList 7 "SELF".toList
     (by with_unfolding_all decide) (by with_unfolding_all decide)⟩

/-! ## C8 -/

/-- C8: the summarizer is invoked with the literal 30000 ms (30 second)
timeout, and whenever the summarizer fails at that timeout (backend error
or abort), a request that reaches summarization — names resolved, cache
miss, non-empty cluster list — fails with the summarization error and
performs no cache write: the relationship store comes back unchanged. -/
theorem summarizer_failure_aborts_without_write (oracle : GeminiOracle)
    (m : Str) (db : Db) (n1 n2 : Str) (i1 i2 : ℤ)
    (hres : findSubjectIdsByName db n1 n2 = .ok (i1, i2))
    (hmiss : cachedSummary db (canonicalPair i1 i2).1 (canonicalPair i1 i2).2 = none)
    (hne : dbscanClusterSubjectEmbeddings db
      (clusterQueryNames (canonicalPair i1 i2).1 (canonicalPair i1 i2).2 n1 n2)
      (1 / 5) 2 ≠ [])
    (hfail : ∀ p, oracle p 30000 = .error m) :
    getOrCreateSubjectRelationship oracle db n1 n2
      = (.error ("Failed to generate relationship summary: ".toList ++ m), db)
    ∧ relationshipSummaryTimeoutMs = 30000 := by
  refine ⟨?_, rfl⟩
  unfold getOrCreateSubjectRelationship
  rw [hres]
  dsimp only
  rw [hmiss]
  unfold generateRelationshipSummary
  dsimp only
  rw [if_neg (show ¬ ((dbscanClusterSubjectEmbeddings db
      (clusterQueryNames (canonicalPair i1 i2).1 (canonicalPair i1 i2).2 n1 n2)
      (1 / 5) 2).isEmpty = true) from fun hcon => hne (List.isEmpty_iff.mp hcon))]
  unfold callGeminiForRelationshipSummary
  rw [show relationshipSummaryTimeoutMs = 30000 from rfl, hfail]

/-- C8 witness: on `cluDb` (one real cluster) with an always-failing
summarizer, the operation fails with the summarization error and the store
is unchanged. -/
theorem summarizer_failure_aborts_without_write_witness :
    getOrCreateSubjectRelationship oracleFail cluDb "Alice".toList "Bob".toList
      = (.error ("Failed to generate relationship summary: ".toList
          ++ "backend down".toList), cluDb)
    ∧ relationshipSummaryTimeoutMs = 30000 :=
  summarizer_failure_aborts_without_write oracleFail "backend down".toList
    cluDb "Alice".toList "Bob".toList 2 3
    (by with_unfolding_all decide) (by with_unfolding_all decide)
    (by with_unfolding_all decide) (fun p => rfl)
